import Mathlib

/-!
Shallow embedding of the prompt-assembly core of the repository
(`server/prompt.go` and the tool-format file): the context-window
truncation scan, the image tagging step, the final prompt assembly
(`chatPrompt`), and the tool-schema derivation
(`parametersFormat`, `toolFormat`, `toolsFormat`, `chatFormat`).

External collaborators (the template renderer `m.Template.Execute`, the
tokenizer, and the mllama image preprocessor) are modelled as
deterministic total functions carried in a `ChatEnv` record; the only
error paths kept are the ones raised by the embedded code itself
(too many images, preprocessing failure, missing aspect-ratio index).
Raw image bytes and token ids are modelled as `List Nat`.
-/

set_option autoImplicit false

namespace Ollama

/-- Models `api.Message`: role, content and the ordered image blobs of one chat turn.
An image blob (`[]byte` in Go) is modelled as `List Nat`. -/
structure Message where
  role : String
  content : String
  images : List (List Nat)
deriving Repr, DecidableEq, Inhabited

/-- Models `llm.ImageData`: id, encoded data and (for mllama) the aspect-ratio index.
For the non-mllama branch Go leaves `AspectRatioID` at its zero value. -/
structure ImageData where
  id : Nat
  data : List Nat
  aspectRatioID : Int
deriving Repr, DecidableEq, Inhabited

/-- A tool property from the tool-format file (`Property`): a JSON type name
plus an optional enumeration. -/
structure ToolProp where
  type : String
  enum : List String
deriving Repr, DecidableEq, Inhabited

/-- Models `api.ToolFunction.Parameters`: the Go `Properties` map is modelled as an
association list (Go map iteration order is unspecified; the list fixes one). -/
structure ToolParameters where
  properties : List (String × ToolProp)
  required : List String
deriving Repr, DecidableEq, Inhabited

/-- Models `api.ToolFunction`: name and parameters. -/
structure ToolFunction where
  name : String
  parameters : ToolParameters
deriving Repr, DecidableEq, Inhabited

/-- Models `api.Tool`: wraps a function definition. -/
structure Tool where
  function : ToolFunction
deriving Repr, DecidableEq, Inhabited

/-- The per-request environment of `chatPrompt`: model-family flags
(`checkMllamaModelFamily`, `m.ProjectorPaths != nil`), the context budget
(`opts.NumCtx`) and the external collaborators.  `render` models
`m.Template.Execute` on `template.Values{Messages, Tools}`; `tokenize`
models the `tokenizeFunc`; `preprocess` models `mllama.Preprocess`
followed by `binary.Write` (`none` is a preprocessing error, and an inner
`none` is a missing `aspectRatioIndex`). -/
structure ChatEnv where
  isMllama : Bool
  hasProjector : Bool
  numCtx : Nat
  render : List Message → List Tool → String
  tokenize : String → List Nat
  preprocess : List Nat → Option (List Nat × Option Int)

/-- The error values `chatPrompt` can return. -/
inductive ChatErr where
  | tooManyImages
  | preprocessFailed
  | missingAspectRatio
deriving Repr, DecidableEq

/-- The successful result of `chatPrompt`: the prompt string and the image
payload sequence. -/
structure ChatResult where
  prompt : String
  images : List ImageData
deriving Repr, DecidableEq, Inhabited

/-- The outcome of a `chatPrompt` call: a Go panic (out-of-bounds slice),
a returned error, or a returned `(prompt, images)` pair. -/
inductive ChatOutcome where
  | panics
  | err (e : ChatErr)
  | ok (r : ChatResult)
deriving Repr, DecidableEq

/-- Per-image token cost added when `m.ProjectorPaths != nil`: 1 for mllama
(packed embedding), 768 otherwise (clip grid). -/
def imageNumTokens (env : ChatEnv) : Nat :=
  if env.isMllama then 1 else 768

/-- The system messages strictly before index `i`:
`for j := range i { if msgs[j].Role == "system" { system = append(...) } }`. -/
def sysBefore (msgs : List Message) (i : Nat) : List Message :=
  (msgs.take i).filter (fun m => m.role == "system")

/-- Total image count of a message list. -/
def imageCount (msgs : List Message) : Nat :=
  (msgs.map (fun m => m.images.length)).sum

/-- The budget cost the truncation loop computes for candidate window start
`i`: the token count of the rendered `system ++ msgs[i:]`, plus
`imageNumTokens * #images(msgs[i:])` when the model has a projector. -/
def costAt (env : ChatEnv) (tools : List Tool) (msgs : List Message) (i : Nat) : Nat :=
  (env.tokenize (env.render (sysBefore msgs i ++ msgs.drop i) tools)).length +
    (if env.hasProjector then imageNumTokens env * imageCount (msgs.drop i) else 0)

/-- The reverse truncation scan of `chatPrompt` (`for i := n; i >= 0; i--`).
`i` is the current index, `n` the best-known window start, `sys` the
`system` slice variable of the Go loop (assigned at every non-skipped
iteration, also the failing one).  Returns the final `(n, system)` pair,
or the too-many-images error.  The Go `break` returns the current `n`
together with the `system` slice assigned at the failing index. -/
def truncLoop (env : ChatEnv) (tools : List Tool) (msgs : List Message) :
    Nat → Nat → List Message → Except ChatErr (Nat × List Message)
  | 0, n, sys =>
    if env.isMllama = true ∧ 1 < (msgs.getD 0 default).images.length then
      Except.error ChatErr.tooManyImages
    else if 0 = n then
      Except.ok (n, sys)
    else if env.numCtx < costAt env tools msgs 0 then
      Except.ok (n, sysBefore msgs 0)
    else
      Except.ok (0, sysBefore msgs 0)
  | i + 1, n, sys =>
    if env.isMllama = true ∧ 1 < (msgs.getD (i + 1) default).images.length then
      Except.error ChatErr.tooManyImages
    else if i + 1 = n then
      truncLoop env tools msgs i n sys
    else if env.numCtx < costAt env tools msgs (i + 1) then
      Except.ok (n, sysBefore msgs (i + 1))
    else
      truncLoop env tools msgs i (i + 1) (sysBefore msgs (i + 1))

/-- The truncation scan entry point: `n := len(msgs) - 1`, `system := nil`. -/
def truncIdx (env : ChatEnv) (tools : List Tool) (msgs : List Message) :
    Except ChatErr (Nat × List Message) :=
  truncLoop env tools msgs (msgs.length - 1) (msgs.length - 1) []

/-- Whether a character list starts with the given pattern. -/
def listStartsWith : List Char → List Char → Bool
  | _, [] => true
  | [], _ :: _ => false
  | c :: cs, p :: ps => c == p && listStartsWith cs ps

/-- Whether a character list contains the pattern as a contiguous substring. -/
def hasSubstrChars (pat : List Char) : List Char → Bool
  | [] => listStartsWith [] pat
  | c :: cs => listStartsWith (c :: cs) pat || hasSubstrChars pat cs

/-- Replace the first occurrence of `pat` in a character list. -/
def replaceFirstChars (pat rep : List Char) : List Char → List Char
  | [] => []
  | c :: cs =>
    if listStartsWith (c :: cs) pat then rep ++ (c :: cs).drop pat.length
    else c :: replaceFirstChars pat rep cs

/-- Models `strings.Contains(s, pat)`. -/
def containsSubstr (s pat : String) : Bool :=
  hasSubstrChars pat.data s.data

/-- Models `strings.Replace(s, pat, rep, 1)`: replace the first occurrence only. -/
def replaceFirst (s pat rep : String) : String :=
  String.mk (replaceFirstChars pat.data rep.data s.data)

/-- The inner image loop of `chatPrompt` (`for _, i := range msg.Images`):
threads the `prefix`, `imgPrompt` and `prompt` string variables (`pre`,
`ip`, `body`) and the global `images` accumulator.  Each payload gets
`ID: len(images)`; mllama preprocesses the blob and sets the leading
marker, the generic branch stores the raw blob.  The tag `[img-N]`
replaces the first `[img]` placeholder when present, otherwise it is
appended to the prefix. -/
def tagImages (env : ChatEnv) : List (List Nat) → String → String → String →
    List ImageData → Except ChatErr (String × String × String × List ImageData)
  | [], pre, ip, body, imgs => Except.ok (pre, ip, body, imgs)
  | img :: rest, pre, ip, body, imgs =>
    if env.isMllama = true then
      match env.preprocess img with
      | none => Except.error ChatErr.preprocessFailed
      | some (_, none) => Except.error ChatErr.missingAspectRatio
      | some (data, some ar) =>
        if containsSubstr body "[img]" = true then
          tagImages env rest pre "<|image|>"
            (replaceFirst body "[img]" ("[img-" ++ toString imgs.length ++ "]"))
            (imgs ++ [⟨imgs.length, data, ar⟩])
        else
          tagImages env rest (pre ++ "[img-" ++ toString imgs.length ++ "]") "<|image|>"
            body (imgs ++ [⟨imgs.length, data, ar⟩])
    else
      if containsSubstr body "[img]" = true then
        tagImages env rest pre ip
          (replaceFirst body "[img]" ("[img-" ++ toString imgs.length ++ "]"))
          (imgs ++ [⟨imgs.length, img, 0⟩])
      else
        tagImages env rest (pre ++ "[img-" ++ toString imgs.length ++ "]") ip body
          (imgs ++ [⟨imgs.length, img, 0⟩])

/-- The outer tagging loop of `chatPrompt`
(`for cnt, msg := range msgs[currMsgIdx:]`): rewrites each window
content of each message to `prefix + imgPrompt + prompt` and accumulates the
image payloads. -/
def tagWindow (env : ChatEnv) : List Message → List ImageData →
    Except ChatErr (List Message × List ImageData)
  | [], imgs => Except.ok ([], imgs)
  | msg :: rest, imgs =>
    match tagImages env msg.images "" "" msg.content imgs with
    | Except.error e => Except.error e
    | Except.ok (pre, ip, body, imgs2) =>
      match tagWindow env rest imgs2 with
      | Except.error e => Except.error e
      | Except.ok (rest2, imgs3) =>
        Except.ok ({ msg with content := pre ++ ip ++ body } :: rest2, imgs3)

/-- The body of `chatPrompt` for a nonempty message list: run the
truncation scan, tag the window `msgs[currMsgIdx:]`, then render
`append(system, msgs[currMsgIdx:]...)` once more. -/
def chatPromptGo (env : ChatEnv) (tools : List Tool) (msgs : List Message) :
    ChatOutcome :=
  match truncIdx env tools msgs with
  | Except.error e => ChatOutcome.err e
  | Except.ok (n, sys) =>
    match tagWindow env (msgs.drop n) [] with
    | Except.error e => ChatOutcome.err e
    | Except.ok (win, imgs) =>
      ChatOutcome.ok ⟨env.render (sys ++ win) tools, imgs⟩

/-- Models `chatPrompt`.  On the empty message list the Go code sets
`n := len(msgs) - 1 = -1`, skips the loop, and then evaluates
`msgs[currMsgIdx:]` with `currMsgIdx = -1`, which panics with a slice
bounds error; the embedding records that outcome as `ChatOutcome.panics`. -/
def chatPrompt (env : ChatEnv) (tools : List Tool) : List Message → ChatOutcome
  | [] => ChatOutcome.panics
  | m :: rest => chatPromptGo env tools (m :: rest)

/-! ### Tool-schema derivation (the tool-format file) -/

/-- A JSON value, restricted to the shapes the formatter builds.  A Go
`map[string]interface{}` is modelled as an association list of fields. -/
inductive JVal where
  | str (s : String)
  | arr (xs : List JVal)
  | obj (fields : List (String × JVal))
deriving Repr

/-- Whether a JSON object value carries a field with the given key. -/
def objHasKey : JVal → String → Bool
  | JVal.obj fields, k => fields.any (fun f => f.1 == k)
  | _, _ => false

/-- The per-property loop body of `parametersFormat`:
`{type: param.Type}` plus `enum: param.Enum` only when the enum is
nonempty. -/
def propertyFormat (param : ToolProp) : JVal :=
  JVal.obj ([("type", JVal.str param.type)] ++
    (if 0 < param.enum.length then [("enum", JVal.arr (param.enum.map JVal.str))] else []))

/-- Models `parametersFormat`: an object schema with the converted properties, and
a `required` field only when the tool declares required parameter names. -/
def parametersFormat (parameters : ToolParameters) : JVal :=
  JVal.obj ([("type", JVal.str "object"),
    ("properties", JVal.obj (parameters.properties.map (fun p => (p.1, propertyFormat p.2))))] ++
    (if 0 < parameters.required.length then
      [("required", JVal.arr (parameters.required.map JVal.str))]
    else []))

/-- Models `toolFormat`: the single-tool schema with a `name` enum and the
converted parameters. -/
def toolFormat (tool : Tool) : JVal :=
  JVal.obj [("type", JVal.str "object"),
    ("properties", JVal.obj [
      ("name", JVal.obj [("type", JVal.str "string"),
        ("enum", JVal.arr [JVal.str tool.function.name])]),
      ("parameters", parametersFormat tool.function.parameters)]),
    ("required", JVal.arr [JVal.str "name", JVal.str "parameters"])]

/-- Models `toolsFormat`: one tool is emitted bare, several are wrapped in `anyOf`. -/
def toolsFormat (tools : List Tool) : JVal :=
  if tools.length = 1 then toolFormat (tools.getD 0 default)
  else JVal.obj [("anyOf", JVal.arr (tools.map toolFormat))]

/-- Models `chatFormat` (the version in the tool-format file, whose
`toolsFormat` pipeline the repository test exercises): pass the request format
through when it is nonempty or no tools were supplied, otherwise marshal
the derived schema.  `json.RawMessage` is modelled as raw bytes
(`List Nat`) and `json.Marshal` as the abstract serializer `marshal`. -/
def chatFormat (marshal : JVal → List Nat) (reqFormat : List Nat)
    (tools : List Tool) : List Nat :=
  if 0 < reqFormat.length ∨ tools.length = 0 then reqFormat
  else marshal (toolsFormat tools)

/-! ### Concrete instances used by witnesses and counterexamples -/

/-- The image-payload-id invariant: payload `k` carries id `k`. -/
def idsSequential (imgs : List ImageData) : Prop :=
  ∀ k, k < imgs.length → (imgs.getD k default).id = k

/-- A deterministic renderer: concatenate the message contents. -/
def joinRender (ms : List Message) (_ : List Tool) : String :=
  String.join (ms.map (fun m => m.content))

/-- A deterministic tokenizer: one token per character. -/
def lenTokenize (s : String) : List Nat :=
  List.range s.length

/-- A preprocessor that always succeeds with aspect-ratio index 0. -/
def idPreprocess (b : List Nat) : Option (List Nat × Option Int) :=
  some (b, some 0)

/-- A generic-family environment with a large budget. -/
def env0 : ChatEnv := ⟨false, false, 100, joinRender, lenTokenize, idPreprocess⟩

/-- A single plain message. -/
def msgs0 : List Message := [⟨"user", "hi", []⟩]

/-- Two plain messages whose joint rendering costs 4 tokens. -/
def msgs24 : List Message := [⟨"user", "ab", []⟩, ⟨"user", "cd", []⟩]

/-- A generic-family environment with a large budget, for image tagging. -/
def env6 : ChatEnv := ⟨false, false, 100, joinRender, lenTokenize, idPreprocess⟩

/-- A single message carrying one image. -/
def msgs6 : List Message := [⟨"user", "hi", [[9]]⟩]

/-- Budget 5: the scan fails exactly at index 1 of `msgsC3`. -/
def envC3 : ChatEnv := ⟨false, false, 5, joinRender, lenTokenize, idPreprocess⟩

/-- A system message sitting exactly at the index where the scan breaks. -/
def msgsC3 : List Message :=
  [⟨"user", "uuuu", []⟩, ⟨"system", "SSSS", []⟩, ⟨"user", "LL", []⟩]

/-- An mllama environment with budget 4: the scan breaks at index 1 of
`msgsC5`, before ever checking the two-image message at index 0. -/
def envC5 : ChatEnv := ⟨true, true, 4, joinRender, lenTokenize, idPreprocess⟩

/-- The first message carries two images, but truncation stops before it. -/
def msgsC5 : List Message :=
  [⟨"user", "xx", [[1], [2]]⟩, ⟨"user", "yyyy", []⟩, ⟨"user", "z", []⟩]

/-- An mllama environment with a large budget. -/
def envW5 : ChatEnv := ⟨true, true, 100, joinRender, lenTokenize, idPreprocess⟩

/-- A single message carrying two images. -/
def msgsW5 : List Message := [⟨"user", "a", [[1], [2]]⟩]

/-- Budget 4: the scan breaks at index 1 of `msgsC7`. -/
def envC7 : ChatEnv := ⟨false, false, 4, joinRender, lenTokenize, idPreprocess⟩

/-- The first message carries an image, and truncation drops that message. -/
def msgsC7 : List Message :=
  [⟨"user", "pp", [[5]]⟩, ⟨"user", "qqqq", []⟩, ⟨"user", "r", []⟩]

/-- The one-tool example of the round trip in the specification. -/
def weatherTool : Tool :=
  ⟨⟨"get_current_weather", ⟨[("location", ⟨"string", []⟩)], ["location"]⟩⟩⟩

/-- The schema the round-trip example of the specification expects. -/
def weatherSchema : JVal :=
  JVal.obj [("type", JVal.str "object"),
    ("properties", JVal.obj [
      ("name", JVal.obj [("type", JVal.str "string"),
        ("enum", JVal.arr [JVal.str "get_current_weather"])]),
      ("parameters", JVal.obj [("type", JVal.str "object"),
        ("properties", JVal.obj [("location", JVal.obj [("type", JVal.str "string")])]),
        ("required", JVal.arr [JVal.str "location"])])]),
    ("required", JVal.arr [JVal.str "name", JVal.str "parameters"])]

/-- A concrete serializer stand-in for `json.Marshal`. -/
def marshal0 : JVal → List Nat := fun _ => [1]

/-! ### Helper lemmas about the truncation scan -/

/-- Loop invariant of the reverse scan: entering iteration `i` with best
index `i + 1`, a successful run returns an `n` that is at most `i + 1`,
every window start in `[n, i]` fits the budget, and when `n > 0` the
window start `n - 1` exceeded the budget. -/
theorem truncLoop_spec (env : ChatEnv) (tools : List Tool) (msgs : List Message) :
    ∀ (i : Nat) (sys : List Message) (n : Nat) (so : List Message),
      truncLoop env tools msgs i (i + 1) sys = Except.ok (n, so) →
      n ≤ i + 1 ∧
      (∀ j, n ≤ j → j ≤ i → costAt env tools msgs j ≤ env.numCtx) ∧
      (0 < n → env.numCtx < costAt env tools msgs (n - 1)) := by
  intro i
  induction i with
  | zero =>
    intro sys n so h
    simp only [truncLoop] at h
    split at h
    · exact absurd h (by simp)
    · split at h
      · omega
      · split at h
        · rename_i hcost
          simp only [Except.ok.injEq, Prod.mk.injEq] at h
          obtain ⟨h1, -⟩ := h
          subst h1
          exact ⟨le_rfl, fun j hj1 hj2 => by omega, fun _ => by simpa using hcost⟩
        · rename_i hcost
          simp only [Except.ok.injEq, Prod.mk.injEq] at h
          obtain ⟨h1, -⟩ := h
          subst h1
          refine ⟨by omega, fun j hj1 hj2 => ?_, fun hc => by omega⟩
          have hj0 : j = 0 := by omega
          subst hj0
          omega
  | succ i ih =>
    intro sys n so h
    simp only [truncLoop] at h
    split at h
    · exact absurd h (by simp)
    · split at h
      · omega
      · split at h
        · rename_i hcost
          simp only [Except.ok.injEq, Prod.mk.injEq] at h
          obtain ⟨h1, -⟩ := h
          subst h1
          refine ⟨le_rfl, fun j hj1 hj2 => by omega, fun _ => ?_⟩
          simpa using hcost
        · rename_i hcost
          obtain ⟨ha, hb, hc⟩ := ih (sysBefore msgs (i + 1)) n so h
          refine ⟨by omega, fun j hj1 hj2 => ?_, hc⟩
          rcases Nat.lt_or_ge j (i + 1) with hj | hj
          · exact hb j hj1 (by omega)
          · have hji : j = i + 1 := by omega
            subst hji
            omega

/-- The truncation scan entry point returns a window start inside the
list, every larger window start also fits the budget, and the next
larger window (start `n - 1`) exceeds it whenever `n > 0`. -/
theorem truncIdx_spec (env : ChatEnv) (tools : List Tool) (msgs : List Message)
    (n : Nat) (so : List Message) (hne : msgs ≠ [])
    (h : truncIdx env tools msgs = Except.ok (n, so)) :
    n < msgs.length ∧
    (∀ j, n ≤ j → j + 1 < msgs.length → costAt env tools msgs j ≤ env.numCtx) ∧
    (0 < n → env.numCtx < costAt env tools msgs (n - 1)) := by
  cases msgs with
  | nil => exact absurd rfl hne
  | cons m rest =>
    unfold truncIdx at h
    have hlen : (m :: rest).length - 1 = rest.length := by simp
    rw [hlen] at h
    cases hr : rest.length with
    | zero =>
      rw [hr] at h
      simp only [truncLoop, if_true] at h
      split at h
      · exact absurd h (by simp)
      · simp only [Except.ok.injEq, Prod.mk.injEq] at h
        obtain ⟨h1, -⟩ := h
        subst h1
        refine ⟨?_, fun j hj1 hj2 => ?_, fun hc => by omega⟩
        · simp only [List.length_cons]
          omega
        · simp only [List.length_cons, hr] at hj2
          omega
    | succ k =>
      rw [hr] at h
      simp only [truncLoop, if_true] at h
      split at h
      · exact absurd h (by simp)
      · obtain ⟨ha, hb, hc⟩ := truncLoop_spec env tools (m :: rest) k [] n so h
        refine ⟨?_, fun j hj1 hj2 => ?_, hc⟩
        · simp only [List.length_cons, hr]
          omega
        · simp only [List.length_cons, hr] at hj2
          exact hb j hj1 (by omega)

/-- Dropping fewer elements than the length preserves the last element. -/
theorem getLast_drop_eq {α : Type} (l : List α) : ∀ n : Nat, n < l.length →
    (l.drop n).getLast? = l.getLast? := by
  induction l with
  | nil => intro n h; simp at h
  | cons x xs ih =>
    intro n h
    cases n with
    | zero => rfl
    | succ m =>
      have hm : m < xs.length := by simpa using h
      have h1 : (x :: xs).drop (m + 1) = xs.drop m := rfl
      rw [h1, ih m hm]
      cases xs with
      | nil => simp at hm
      | cons y ys => rfl

/-- Appending a payload whose id is the current length preserves the
sequential-id invariant. -/
theorem idsSequential_append (imgs : List ImageData) (x : ImageData)
    (hx : x.id = imgs.length) (h : idsSequential imgs) :
    idsSequential (imgs ++ [x]) := by
  intro k hk
  simp only [List.length_append, List.length_cons, List.length_nil] at hk
  rcases Nat.lt_or_ge k imgs.length with hlt | hge
  · rw [List.getD_append _ _ _ _ hlt]
    exact h k hlt
  · have hk2 : k = imgs.length := by omega
    subst hk2
    rw [List.getD_append_right _ _ _ _ hge]
    simpa using hx

/-- The inner image loop appends exactly one payload per image and
preserves the sequential-id invariant. -/
theorem tagImages_spec (env : ChatEnv) :
    ∀ (blobs : List (List Nat)) (pre ip body : String) (imgs : List ImageData)
      (p q b : String) (out : List ImageData),
      tagImages env blobs pre ip body imgs = Except.ok (p, q, b, out) →
      out.length = imgs.length + blobs.length ∧
      (idsSequential imgs → idsSequential out) := by
  intro blobs
  induction blobs with
  | nil =>
    intro pre ip body imgs p q b out h
    simp only [tagImages, Except.ok.injEq, Prod.mk.injEq] at h
    obtain ⟨-, -, -, h4⟩ := h
    subst h4
    exact ⟨by simp, fun hs => hs⟩
  | cons img rest ihr =>
    intro pre ip body imgs p q b out h
    simp only [tagImages] at h
    split at h
    · split at h
      · exact absurd h (by simp)
      · exact absurd h (by simp)
      · rename_i data ar heq
        split at h
        · obtain ⟨h1, h2⟩ := ihr _ _ _ _ _ _ _ _ h
          refine ⟨?_, fun hs => h2 (idsSequential_append imgs _ rfl hs)⟩
          simp only [List.length_append, List.length_cons, List.length_nil] at h1 ⊢
          omega
        · obtain ⟨h1, h2⟩ := ihr _ _ _ _ _ _ _ _ h
          refine ⟨?_, fun hs => h2 (idsSequential_append imgs _ rfl hs)⟩
          simp only [List.length_append, List.length_cons, List.length_nil] at h1 ⊢
          omega
    · split at h
      · obtain ⟨h1, h2⟩ := ihr _ _ _ _ _ _ _ _ h
        refine ⟨?_, fun hs => h2 (idsSequential_append imgs _ rfl hs)⟩
        simp only [List.length_append, List.length_cons, List.length_nil] at h1 ⊢
        omega
      · obtain ⟨h1, h2⟩ := ihr _ _ _ _ _ _ _ _ h
        refine ⟨?_, fun hs => h2 (idsSequential_append imgs _ rfl hs)⟩
        simp only [List.length_append, List.length_cons, List.length_nil] at h1 ⊢
        omega

/-- The outer tagging loop appends one payload per image of the window and
preserves the sequential-id invariant. -/
theorem tagWindow_spec (env : ChatEnv) :
    ∀ (ms : List Message) (imgs : List ImageData) (ms2 : List Message)
      (out : List ImageData),
      tagWindow env ms imgs = Except.ok (ms2, out) →
      out.length = imgs.length + imageCount ms ∧
      (idsSequential imgs → idsSequential out) := by
  intro ms
  induction ms with
  | nil =>
    intro imgs ms2 out h
    simp only [tagWindow, Except.ok.injEq, Prod.mk.injEq] at h
    obtain ⟨-, h2⟩ := h
    subst h2
    exact ⟨by simp [imageCount], fun hs => hs⟩
  | cons msg rest ihr =>
    intro imgs ms2 out h
    simp only [tagWindow] at h
    split at h
    · exact absurd h (by simp)
    · rename_i pre ip body imgs2 htag
      split at h
      · exact absurd h (by simp)
      · rename_i rest2 imgs3 hrec
        simp only [Except.ok.injEq, Prod.mk.injEq] at h
        obtain ⟨-, h2⟩ := h
        subst h2
        obtain ⟨ha1, ha2⟩ := tagImages_spec env msg.images "" "" msg.content imgs _ _ _ _ htag
        obtain ⟨hb1, hb2⟩ := ihr imgs2 rest2 imgs3 hrec
        refine ⟨?_, fun hs => hb2 (ha2 hs)⟩
        simp only [imageCount, List.map_cons, List.sum_cons] at hb1 ⊢
        omega

/-! ### Claim theorems -/

/-- Claim C1: for every non-empty message list, a successful truncation
scan returns a window `msgs[n:]` that is non-empty and still ends with
the last message of the original list, for every budget (no budget
hypothesis appears). -/
theorem chatPrompt_window_includes_last (env : ChatEnv) (tools : List Tool)
    (msgs : List Message) (n : Nat) (sys : List Message) (hne : msgs ≠ [])
    (h : truncIdx env tools msgs = Except.ok (n, sys)) :
    msgs.drop n ≠ [] ∧ (msgs.drop n).getLast? = msgs.getLast? ∧ n < msgs.length := by
  obtain ⟨h1, -, -⟩ := truncIdx_spec env tools msgs n sys hne h
  refine ⟨?_, getLast_drop_eq msgs n h1, h1⟩
  intro hd
  have hlen := congrArg List.length hd
  simp only [List.length_drop, List.length_nil] at hlen
  omega

/-- Witness for C1 at a concrete one-message list. -/
theorem chatPrompt_window_includes_last_witness :
    msgs0.drop 0 ≠ [] ∧ (msgs0.drop 0).getLast? = msgs0.getLast? ∧ 0 < msgs0.length :=
  chatPrompt_window_includes_last env0 [] msgs0 0 [] (by decide) rfl

/-- Claim C2: the window start `n` selected by the truncation scan fits
the budget whenever `n < N - 1`; moreover every window start in
`[n, N-2]` fits the budget (the backward scan passed them) and, when
`n > 0`, window start `n - 1` exceeds it (the scan reverted to `n` as
soon as the budget was exceeded). -/
theorem truncIdx_budget_boundary (env : ChatEnv) (tools : List Tool)
    (msgs : List Message) (n : Nat) (sys : List Message) (hne : msgs ≠ [])
    (h : truncIdx env tools msgs = Except.ok (n, sys)) :
    (n + 1 < msgs.length → costAt env tools msgs n ≤ env.numCtx) ∧
    (∀ j, n ≤ j → j + 1 < msgs.length → costAt env tools msgs j ≤ env.numCtx) ∧
    (0 < n → env.numCtx < costAt env tools msgs (n - 1)) := by
  obtain ⟨-, h2, h3⟩ := truncIdx_spec env tools msgs n sys hne h
  exact ⟨fun hn => h2 n le_rfl hn, h2, h3⟩

/-- Witness for C2 at a concrete two-message list. -/
theorem truncIdx_budget_boundary_witness :
    (0 + 1 < msgs24.length → costAt env0 [] msgs24 0 ≤ env0.numCtx) ∧
    (∀ j, 0 ≤ j → j + 1 < msgs24.length → costAt env0 [] msgs24 j ≤ env0.numCtx) ∧
    (0 < 0 → env0.numCtx < costAt env0 [] msgs24 (0 - 1)) :=
  truncIdx_budget_boundary env0 [] msgs24 0 [] (by decide) rfl

/-- Claim C3 (code bug evaluation): on `msgsC3` the budget check fails at
index 1, which holds the only system message; the final prompt `"LL"`
renders only the last message, so that system message is silently
dropped even though it lies strictly before the window start — contrary
to the claim, the spec, and the documentation comment of the function. -/
theorem chatPrompt_drops_system_at_break :
    (msgsC3.getD 1 default).role = "system" ∧
    truncIdx envC3 [] msgsC3 = Except.ok (2, []) ∧
    chatPrompt envC3 [] msgsC3 = ChatOutcome.ok ⟨"LL", []⟩ :=
  ⟨rfl, rfl, rfl⟩

/-- Claim C4: for a fixed message list and render/tokenize pair, a larger
budget never selects a smaller truncation window. -/
theorem truncWindow_monotone (env : ChatEnv) (tools : List Tool)
    (msgs : List Message) (B B2 n n2 : Nat) (s1 s2 : List Message)
    (hB : B ≤ B2) (hne : msgs ≠ [])
    (h1 : truncIdx { env with numCtx := B } tools msgs = Except.ok (n, s1))
    (h2 : truncIdx { env with numCtx := B2 } tools msgs = Except.ok (n2, s2)) :
    (msgs.drop n).length ≤ (msgs.drop n2).length := by
  obtain ⟨e1a, e1b, e1c⟩ := truncIdx_spec { env with numCtx := B } tools msgs n s1 hne h1
  obtain ⟨e2a, e2b, e2c⟩ := truncIdx_spec { env with numCtx := B2 } tools msgs n2 s2 hne h2
  have hcost : ∀ i, costAt { env with numCtx := B } tools msgs i
      = costAt { env with numCtx := B2 } tools msgs i := fun i => rfl
  simp only [List.length_drop]
  by_contra hcon
  have hlt : n < n2 := by omega
  have h0 : 0 < n2 := by omega
  have hb2 := e2c h0
  have hb1 := e1b (n2 - 1) (by omega) (by omega)
  rw [hcost (n2 - 1)] at hb1
  simp only at hb1 hb2
  omega

/-- Witness for C4 at budgets 3 and 100 on a two-message list. -/
theorem truncWindow_monotone_witness :
    (msgs24.drop 1).length ≤ (msgs24.drop 0).length :=
  truncWindow_monotone env0 [] msgs24 3 100 1 0 [] [] (by omega) (by decide) rfl rfl

/-- Claim C5 counterexample: `msgsC5` contains a message with two images
and `envC5` is mllama, yet `chatPrompt` succeeds — the budget check
breaks the scan at index 1, so the two-image message at index 0 is never
examined.  The claim that every such list yields the TooManyImages error
is therefore false. -/
theorem chatPrompt_tooManyImages_not_always :
    envC5.isMllama = true ∧
    (msgsC5.getD 0 default).images.length = 2 ∧
    chatPrompt envC5 [] msgsC5 = ChatOutcome.ok ⟨"z", []⟩ :=
  ⟨rfl, rfl, rfl⟩

/-- Claim C5 (amended): when the LAST message carries two or more images
and the model family is mllama, `chatPrompt` returns the TooManyImages
error before any further processing — the outcome carries no prompt and
no image payloads. -/
theorem chatPrompt_tooManyImages_last (env : ChatEnv) (tools : List Tool)
    (msgs : List Message) (hm : env.isMllama = true) (hne : msgs ≠ [])
    (him : 1 < (msgs.getD (msgs.length - 1) default).images.length) :
    chatPrompt env tools msgs = ChatOutcome.err ChatErr.tooManyImages := by
  cases msgs with
  | nil => exact absurd rfl hne
  | cons m rest =>
    have hlen : (m :: rest).length - 1 = rest.length := by simp
    rw [hlen] at him
    simp only [chatPrompt, chatPromptGo, truncIdx, hlen]
    cases hr : rest.length with
    | zero =>
      rw [hr] at him
      have hstep : truncLoop env tools (m :: rest) 0 0 []
          = Except.error ChatErr.tooManyImages := by
        simp only [truncLoop]
        rw [if_pos (And.intro hm him)]
      rw [hstep]
    | succ k =>
      rw [hr] at him
      have hstep : truncLoop env tools (m :: rest) (k + 1) (k + 1) []
          = Except.error ChatErr.tooManyImages := by
        simp only [truncLoop]
        rw [if_pos (And.intro hm him)]
      rw [hstep]

/-- Witness for the amended C5: a single mllama message with two images. -/
theorem chatPrompt_tooManyImages_last_witness :
    chatPrompt envW5 [] msgsW5 = ChatOutcome.err ChatErr.tooManyImages :=
  chatPrompt_tooManyImages_last envW5 [] msgsW5 rfl (by decide) (by decide)

/-- Claim C6: on every successful `chatPrompt` call the returned image
payloads carry ids `0, 1, 2, ...` in order: payload `k` has id `k`. -/
theorem chatPrompt_image_ids (env : ChatEnv) (tools : List Tool)
    (msgs : List Message) (r : ChatResult)
    (h : chatPrompt env tools msgs = ChatOutcome.ok r) :
    ∀ k, k < r.images.length → (r.images.getD k default).id = k := by
  cases msgs with
  | nil => exact absurd h (by simp [chatPrompt])
  | cons m rest =>
    simp only [chatPrompt, chatPromptGo] at h
    split at h
    · exact absurd h (by simp)
    · rename_i n sys htr
      split at h
      · exact absurd h (by simp)
      · rename_i win imgs htag
        simp only [ChatOutcome.ok.injEq] at h
        subst h
        have hs := (tagWindow_spec env ((m :: rest).drop n) [] win imgs htag).2
        exact hs (fun k hk => absurd hk (by simp))

/-- Witness for C6 at a concrete one-image request. -/
theorem chatPrompt_image_ids_witness :
    ((ChatResult.mk "[img-0]hi" [⟨0, [9], 0⟩]).images.getD 0 default).id = 0 :=
  chatPrompt_image_ids env6 [] msgs6 ⟨"[img-0]hi", [⟨0, [9], 0⟩]⟩ rfl 0 (by decide)

/-- Claim C7 counterexample: the first message of `msgsC7` carries an image,
truncation drops that message (window start 2), and the returned payload
list is empty even though the request contains one image — tagging runs
over the truncated window only, not over the full original list. -/
theorem chatPrompt_tags_window_only_cex :
    imageCount msgsC7 = 1 ∧
    chatPrompt envC7 [] msgsC7 = ChatOutcome.ok ⟨"r", []⟩ :=
  ⟨rfl, rfl⟩

/-- Claim C7 (amended): image tagging runs over the truncation window
`msgs[n:]` only: a successful call returns exactly one payload per image
of each window message (images of truncated messages are dropped). -/
theorem chatPrompt_images_count_window (env : ChatEnv) (tools : List Tool)
    (msgs : List Message) (n : Nat) (sys : List Message) (r : ChatResult)
    (ht : truncIdx env tools msgs = Except.ok (n, sys))
    (h : chatPrompt env tools msgs = ChatOutcome.ok r) :
    r.images.length = imageCount (msgs.drop n) := by
  cases msgs with
  | nil => exact absurd h (by simp [chatPrompt])
  | cons m rest =>
    simp only [chatPrompt, chatPromptGo] at h
    split at h
    · rename_i e htr
      rw [ht] at htr
      exact absurd htr (by simp)
    · rename_i n2 sys2 htr
      rw [ht] at htr
      simp only [Except.ok.injEq, Prod.mk.injEq] at htr
      obtain ⟨hn2, -⟩ := htr
      subst hn2
      split at h
      · exact absurd h (by simp)
      · rename_i win imgs htag
        simp only [ChatOutcome.ok.injEq] at h
        subst h
        simpa using (tagWindow_spec env ((m :: rest).drop n) [] win imgs htag).1

/-- Witness for the amended C7 at a concrete one-image request. -/
theorem chatPrompt_images_count_window_witness :
    (ChatResult.mk "[img-0]hi" [⟨0, [9], 0⟩]).images.length = imageCount (msgs6.drop 0) :=
  chatPrompt_images_count_window env6 [] msgs6 0 [] ⟨"[img-0]hi", [⟨0, [9], 0⟩]⟩ rfl rfl

/-- Claim C8: `chatFormat` passes a non-empty caller-supplied format
through unchanged; with an empty tool list it also returns the request
format (possibly empty); only with an empty request format and at least
one tool does it return the marshalled derived schema. -/
theorem chatFormat_passthrough (marshal : JVal → List Nat)
    (reqFormat : List Nat) (tools : List Tool) :
    (reqFormat ≠ [] → chatFormat marshal reqFormat tools = reqFormat) ∧
    (tools = [] → chatFormat marshal reqFormat tools = reqFormat) ∧
    (reqFormat = [] → tools ≠ [] →
      chatFormat marshal reqFormat tools = marshal (toolsFormat tools)) := by
  unfold chatFormat
  refine ⟨fun hne => ?_, fun ht => ?_, fun h0 hts => ?_⟩
  · rw [if_pos (Or.inl (List.length_pos.mpr hne))]
  · rw [if_pos (Or.inr (by simp [ht]))]
  · have hcond : ¬(0 < reqFormat.length ∨ tools.length = 0) := by
      rintro (hc | hc)
      · rw [h0] at hc
        simp at hc
      · exact hts (List.length_eq_zero.mp hc)
    rw [if_neg hcond]

/-- Witness for C8 at concrete formats and tool lists. -/
theorem chatFormat_passthrough_witness :
    chatFormat marshal0 [7] [weatherTool] = [7] ∧
    chatFormat marshal0 [] [] = [] ∧
    chatFormat marshal0 [] [weatherTool] = marshal0 (toolsFormat [weatherTool]) :=
  ⟨(chatFormat_passthrough marshal0 [7] [weatherTool]).1 (by decide),
   (chatFormat_passthrough marshal0 [] []).2.1 rfl,
   (chatFormat_passthrough marshal0 [] [weatherTool]).2.2 rfl (by decide)⟩

/-- Claim C9: a single tool is emitted as a bare object schema (no
`anyOf` wrapper); the `get_current_weather` example of the spec yields
exactly the expected schema; the parameter conversion emits `enum` only
for a nonempty enum and `required` only when required names exist. -/
theorem toolFormat_single_round_trip :
    (∀ t : Tool, toolsFormat [t] = toolFormat t) ∧
    toolsFormat [weatherTool] = weatherSchema ∧
    (∀ p : ToolProp, objHasKey (propertyFormat p) "enum" = !p.enum.isEmpty) ∧
    (∀ ps : ToolParameters,
      objHasKey (parametersFormat ps) "required" = !ps.required.isEmpty) := by
  refine ⟨fun t => rfl, rfl, fun p => ?_, fun ps => ?_⟩
  · rcases p with ⟨ty, en⟩
    cases en with
    | nil => rfl
    | cons e es => simp [propertyFormat, objHasKey]
  · rcases ps with ⟨props, req⟩
    cases req with
    | nil => rfl
    | cons r rs => simp [parametersFormat, objHasKey]

/-- Claim C10: `chatPrompt` panics (out-of-bounds slice `msgs[-1:]`) on
the empty message list, and on no other input: non-emptiness is an
unstated precondition of the interface. -/
theorem chatPrompt_empty_panics (env : ChatEnv) (tools : List Tool) :
    chatPrompt env tools [] = ChatOutcome.panics ∧
    ∀ msgs : List Message, msgs ≠ [] → chatPrompt env tools msgs ≠ ChatOutcome.panics := by
  refine ⟨rfl, fun msgs hne => ?_⟩
  cases msgs with
  | nil => exact absurd rfl hne
  | cons m rest =>
    simp only [chatPrompt, chatPromptGo]
    cases h1 : truncIdx env tools (m :: rest) with
    | error e => simp
    | ok p =>
      obtain ⟨n, sys⟩ := p
      cases h2 : tagWindow env ((m :: rest).drop n) [] with
      | error e => simp [h2]
      | ok q =>
        obtain ⟨win, imgs⟩ := q
        simp [h2]

/-- Witness for C10: the empty list panics, a one-message list does not. -/
theorem chatPrompt_empty_panics_witness :
    chatPrompt env0 [] [] = ChatOutcome.panics ∧
    chatPrompt env0 [] msgs0 ≠ ChatOutcome.panics :=
  ⟨(chatPrompt_empty_panics env0 []).1,
   (chatPrompt_empty_panics env0 []).2 msgs0 (by decide)⟩

end Ollama
